import Mathlib

/-!
Shallow embedding of the core subsystems of the `sw1nn-pkg-repo` package
repository server, together with theorems checking the natural-language
specification against the code.

Conventions of the embedding:
* byte strings are `List Nat` (one `Nat` per byte; only lengths and
  equality of contents matter to the properties proved here);
* filesystem paths are `List String` (the sequence of path components
  joined by the platform separator in the real code);
* external library functions (SHA-256, MD5, UUID parsing, the filesystem
  `canonicalize`-based containment check) are abstracted as explicit
  function parameters, since their implementations live outside this
  repository;
* fallible Rust functions returning `Result<T, Error>` become
  `Except Error T`.
-/

deriving instance DecidableEq for Except

namespace PkgRepo

/-- The crate-wide error enum from `src/error.rs` (`Error`).  Payload
strings model the formatted messages; variants irrelevant to the claims
keep their message field only. -/
inductive Error where
  | io (path : String)
  | packageNotFound (pkgname : String)
  | invalidPackage (pkgname : String)
  | packageAlreadyExists (pkgname : String)
  | payloadTooLarge (msg : String)
  | metadataGeneration (msg : String)
  | config (msg : String)
  | permissionDenied (path : String)
  deriving DecidableEq, Repr

/-- `Result<T>` from `src/error.rs`. -/
abbrev Result (α : Type) := Except Error α

/-- `validate_path_component` from `src/storage/mod.rs` (lines 8-35):
rejects empty components, `.`, `..`, components containing a path
separator, and components containing a NUL byte, in that order.  (The
source wraps the offending component in single quotes in the second
message; the quotes are elided here.  Rust's `str::contains(char)` is
membership of the character in the string's character sequence.) -/
def validatePathComponent (component : String) : Result Unit :=
  if component.isEmpty then
    .error (.invalidPackage "Path component cannot be empty")
  else if component == "." || component == ".." then
    .error (.invalidPackage ("Invalid path component: " ++ component))
  else if component.data.contains '/' || component.data.contains '\\' then
    .error (.invalidPackage "Path component cannot contain path separators")
  else if component.data.contains (Char.ofNat 0) then
    .error (.invalidPackage "Path component cannot contain null bytes")
  else
    .ok ()

/-- `validate_path_within_base` performs filesystem canonicalisation
(symlink resolution), which is outside the pure model; path-building
operations below take it as an abstract parameter `withinBase`. -/
abbrev WithinBaseCheck := List String → Result Unit

/-- `Storage::package_path` from `src/storage/mod.rs` (lines 87-102):
validates `repo`, `arch` and `filename`, joins
`base/{repo}/os/{arch}/{filename}`, then runs the containment check. -/
def packagePath (basePath : List String) (withinBase : WithinBaseCheck)
    (repo arch filename : String) : Result (List String) :=
  match validatePathComponent repo with
  | .error e => .error e
  | .ok _ =>
  match validatePathComponent arch with
  | .error e => .error e
  | .ok _ =>
  match validatePathComponent filename with
  | .error e => .error e
  | .ok _ =>
  match withinBase (basePath ++ [repo, "os", arch, filename]) with
  | .error e => .error e
  | .ok _ => .ok (basePath ++ [repo, "os", arch, filename])

/-- `Storage::metadata_path` from `src/storage/mod.rs` (lines 105-121):
validates `repo`, `arch` and `package_name`, joins
`base/{repo}/os/{arch}/metadata/{package_name}.json`, then runs the
containment check. -/
def metadataPath (basePath : List String) (withinBase : WithinBaseCheck)
    (repo arch packageName : String) : Result (List String) :=
  match validatePathComponent repo with
  | .error e => .error e
  | .ok _ =>
  match validatePathComponent arch with
  | .error e => .error e
  | .ok _ =>
  match validatePathComponent packageName with
  | .error e => .error e
  | .ok _ =>
  match withinBase (basePath ++ [repo, "os", arch, "metadata", packageName ++ ".json"]) with
  | .error e => .error e
  | .ok _ => .ok (basePath ++ [repo, "os", arch, "metadata", packageName ++ ".json"])

/-- `Storage::repo_dir` from `src/storage/mod.rs` (lines 124-133):
validates `repo` and `arch`, joins `base/{repo}/os/{arch}`, then runs
the containment check. -/
def repoDir (basePath : List String) (withinBase : WithinBaseCheck)
    (repo arch : String) : Result (List String) :=
  match validatePathComponent repo with
  | .error e => .error e
  | .ok _ =>
  match validatePathComponent arch with
  | .error e => .error e
  | .ok _ =>
  match withinBase (basePath ++ [repo, "os", arch]) with
  | .error e => .error e
  | .ok _ => .ok (basePath ++ [repo, "os", arch])

/-- The family of inputs the path-safety property quantifies over:
empty, `.`, `..`, contains `/`, contains `\`, contains NUL. -/
def IsBadComponent (x : String) : Prop :=
  x = "" ∨ x = "." ∨ x = ".." ∨ x.data.contains '/' = true ∨
    x.data.contains '\\' = true ∨ x.data.contains (Char.ofNat 0) = true

/-- A result is an `InvalidPackage` rejection (with some message). -/
def IsInvalidPackage {α : Type} (r : Result α) : Prop :=
  ∃ m, r = .error (.invalidPackage m)

theorem validatePathComponent_bad (x : String) (h : IsBadComponent x) :
    IsInvalidPackage (validatePathComponent x) := by
  unfold validatePathComponent IsInvalidPackage
  split
  · exact ⟨_, rfl⟩
  · split
    · exact ⟨_, rfl⟩
    · split
      · exact ⟨_, rfl⟩
      · split
        · exact ⟨_, rfl⟩
        · exfalso
          rename_i h0 h1 h2 h3
          simp only [Bool.or_eq_true] at h1 h2
          rcases h with rfl | rfl | rfl | h | h | h
          · exact h0 rfl
          · exact h1 (Or.inl (by decide))
          · exact h1 (Or.inr (by decide))
          · exact h2 (Or.inl h)
          · exact h2 (Or.inr h)
          · exact h3 h

/-- Every outcome of `validate_path_component` is either acceptance or an
`InvalidPackage` rejection. -/
theorem validatePathComponent_cases (c : String) :
    validatePathComponent c = .ok () ∨ IsInvalidPackage (validatePathComponent c) := by
  unfold validatePathComponent IsInvalidPackage
  split
  · exact Or.inr ⟨_, rfl⟩
  · split
    · exact Or.inr ⟨_, rfl⟩
    · split
      · exact Or.inr ⟨_, rfl⟩
      · split
        · exact Or.inr ⟨_, rfl⟩
        · exact Or.inl rfl

/-- **C5** For every path-component input `x` that is empty, `.`, `..`,
contains `/`, contains `\`, or contains a NUL byte, every path-building
operation of `Storage` (`package_path`, `metadata_path`, `repo_dir`)
returns the `InvalidPackage` error — whichever argument position `x`
occupies, for every base path, every containment check and every value
of the remaining components — and hence constructs no path. -/
theorem c5_path_safety (x : String) (h : IsBadComponent x)
    (basePath : List String) (withinBase : WithinBaseCheck) (a b : String) :
    IsInvalidPackage (packagePath basePath withinBase x a b) ∧
    IsInvalidPackage (packagePath basePath withinBase a x b) ∧
    IsInvalidPackage (packagePath basePath withinBase a b x) ∧
    IsInvalidPackage (metadataPath basePath withinBase x a b) ∧
    IsInvalidPackage (metadataPath basePath withinBase a x b) ∧
    IsInvalidPackage (metadataPath basePath withinBase a b x) ∧
    IsInvalidPackage (repoDir basePath withinBase x a) ∧
    IsInvalidPackage (repoDir basePath withinBase a x) := by
  obtain ⟨mx, hmx⟩ := validatePathComponent_bad x h
  refine ⟨?_, ?_, ?_, ?_, ?_, ?_, ?_, ?_⟩
  · exact ⟨mx, by unfold packagePath; rw [hmx]⟩
  · rcases validatePathComponent_cases a with ha | ⟨ma, hma⟩
    · exact ⟨mx, by unfold packagePath; rw [ha, hmx]⟩
    · exact ⟨ma, by unfold packagePath; rw [hma]⟩
  · rcases validatePathComponent_cases a with ha | ⟨ma, hma⟩
    · rcases validatePathComponent_cases b with hb | ⟨mb, hmb⟩
      · exact ⟨mx, by unfold packagePath; rw [ha, hb, hmx]⟩
      · exact ⟨mb, by unfold packagePath; rw [ha, hmb]⟩
    · exact ⟨ma, by unfold packagePath; rw [hma]⟩
  · exact ⟨mx, by unfold metadataPath; rw [hmx]⟩
  · rcases validatePathComponent_cases a with ha | ⟨ma, hma⟩
    · exact ⟨mx, by unfold metadataPath; rw [ha, hmx]⟩
    · exact ⟨ma, by unfold metadataPath; rw [hma]⟩
  · rcases validatePathComponent_cases a with ha | ⟨ma, hma⟩
    · rcases validatePathComponent_cases b with hb | ⟨mb, hmb⟩
      · exact ⟨mx, by unfold metadataPath; rw [ha, hb, hmx]⟩
      · exact ⟨mb, by unfold metadataPath; rw [ha, hmb]⟩
    · exact ⟨ma, by unfold metadataPath; rw [hma]⟩
  · exact ⟨mx, by unfold repoDir; rw [hmx]⟩
  · rcases validatePathComponent_cases a with ha | ⟨ma, hma⟩
    · exact ⟨mx, by unfold repoDir; rw [ha, hmx]⟩
    · exact ⟨ma, by unfold repoDir; rw [hma]⟩

/-- Witness for C5: the concrete traversal input `..` is rejected by all
three path builders (with a trivially accepting containment check and
otherwise valid components). -/
theorem c5_path_safety_witness :
    IsBadComponent ".." ∧
      IsInvalidPackage (packagePath ["data"] (fun _ => .ok ()) ".." "x86_64" "f.pkg.tar.zst") := by
  have h : IsBadComponent ".." := Or.inr (Or.inr (Or.inl rfl))
  exact ⟨h, (c5_path_safety ".." h ["data"] (fun _ => .ok ()) "x86_64" "f.pkg.tar.zst").1⟩

/-! ## Upload engine (`src/upload.rs`) -/

/-- `UploadSession` from `src/upload.rs` (lines 21-36).  `created_at` and
`expires_at` are real-time instants; the only use the claims make of them
is the boolean `is_expired` comparison against `Utc::now()`, so the model
carries that boolean directly as `expired`.  `uploaded_chunks` is the
`HashSet<u32>` of 1-indexed chunk numbers. -/
structure UploadSession where
  uploadId : String
  filename : String
  fileSize : Nat
  sha256 : Option String
  repo : String
  arch : String
  chunkSize : Nat
  totalChunks : Nat
  hasSignature : Bool
  expired : Bool
  uploadedChunks : Finset Nat
  deriving DecidableEq

/-- `UploadSession::is_complete` (lines 48-51): the set has exactly
`total_chunks` elements and contains every number in `1..=total_chunks`. -/
def UploadSession.isComplete (s : UploadSession) : Bool :=
  s.uploadedChunks.card == s.totalChunks &&
    (List.range' 1 s.totalChunks).all (fun n => n ∈ s.uploadedChunks)

/-- `UploadSession::missing_chunks` (lines 53-57). -/
def UploadSession.missingChunks (s : UploadSession) : List Nat :=
  (List.range' 1 s.totalChunks).filter (fun n => n ∉ s.uploadedChunks)

/-- The distinct failure modes of the upload store.  In `src/upload.rs`
each of these is reported as `Error::InvalidPackage` with a formatted
message, except the chunk-file read failure which surfaces as `Error::Io`;
`UploadError.toError` performs exactly that mapping. -/
inductive UploadError where
  | sessionNotFound (uploadId : String)
  | chunkOutOfRange (chunk total : Nat)
  | chunkSizeMismatch (chunk expected got : Nat)
  | finalChunkSizeMismatch (chunk expected got : Nat)
  | incomplete (missing : List Nat)
  | ioMissingChunk (chunk : Nat)
  | sizeMismatch (expected got : Nat)
  | checksumMismatch (expected actual : String)
  deriving DecidableEq, Repr

/-- Mapping of each upload failure onto the crate `Error` enum, following
the `Err(Error::InvalidPackage { .. })` / `map_io_err` sites in
`src/upload.rs`. -/
def UploadError.toError : UploadError → Error
  | .sessionNotFound id => .invalidPackage ("Upload session not found: " ++ id)
  | .chunkOutOfRange c t =>
      .invalidPackage ("Chunk number " ++ toString c ++ " out of range (1-" ++ toString t ++ ")")
  | .chunkSizeMismatch c e g =>
      .invalidPackage ("Chunk " ++ toString c ++ " size mismatch: expected " ++ toString e ++
        ", got " ++ toString g)
  | .finalChunkSizeMismatch c e g =>
      .invalidPackage ("Final chunk " ++ toString c ++ " size mismatch: expected " ++ toString e ++
        ", got " ++ toString g)
  | .incomplete missing => .invalidPackage ("Upload incomplete. Missing chunks: " ++ toString missing)
  | .ioMissingChunk c => .io ("chunks/chunk_" ++ toString c)
  | .sizeMismatch e g =>
      .invalidPackage ("Assembled size mismatch: expected " ++ toString e ++ ", got " ++ toString g)
  | .checksumMismatch e a =>
      .invalidPackage ("Checksum mismatch: expected " ++ e ++ ", got " ++ a)

/-- The last-chunk size formula of `store_chunk` (lines 411-418): the
final chunk must carry `file_size % chunk_size` bytes, or a full
`chunk_size` when that modulus is zero. -/
def expectedChunkSize (s : UploadSession) (i : Nat) : Nat :=
  if i < s.totalChunks then s.chunkSize
  else if s.fileSize % s.chunkSize = 0 then s.chunkSize
  else s.fileSize % s.chunkSize

/-- `UploadSessionStore::store_chunk` from `src/upload.rs` (lines
380-448).  The session lookup result is passed as `sessionOpt`
(`get_session` returns `sessionNotFound` for an absent id); the MD5 of
the body, returned to the client, is computed by the external `md5`
crate, abstracted as the `md5` parameter.  The disk write is modelled as
always succeeding; the function returns the updated session (with the
chunk number inserted into `uploaded_chunks`) together with the checksum. -/
def storeChunk (md5 : List Nat → String) (sessionOpt : Option UploadSession)
    (chunkNumber : Nat) (data : List Nat) :
    Except UploadError (UploadSession × String) :=
  match sessionOpt with
  | none => .error (.sessionNotFound "")
  | some session =>
    if chunkNumber < 1 || chunkNumber > session.totalChunks then
      .error (.chunkOutOfRange chunkNumber session.totalChunks)
    else if chunkNumber < session.totalChunks then
      if data.length ≠ session.chunkSize then
        .error (.chunkSizeMismatch chunkNumber session.chunkSize data.length)
      else
        .ok ({ session with uploadedChunks := insert chunkNumber session.uploadedChunks },
          md5 data)
    else
      -- `expected_last_chunk_size` / `expected_size` locals of the source,
      -- inlined
      if data.length ≠ (if session.fileSize % session.chunkSize = 0
          then session.chunkSize else session.fileSize % session.chunkSize) then
        .error (.finalChunkSizeMismatch chunkNumber
          (if session.fileSize % session.chunkSize = 0
            then session.chunkSize else session.fileSize % session.chunkSize) data.length)
      else
        .ok ({ session with uploadedChunks := insert chunkNumber session.uploadedChunks },
          md5 data)

/-- The chunk-file read loop of `assemble_chunks` (lines 489-502): read
each chunk file in order and concatenate.  `chunks` is the staging
directory contents (`chunks i = none` models a missing `chunk_{i:03}`
file, whose `fs::read` fails with an I/O error). -/
def readChunks (chunks : Nat → Option (List Nat)) : List Nat → Except UploadError (List Nat)
  | [] => .ok []
  | i :: rest =>
    match chunks i with
    | none => .error (.ioMissingChunk i)
    | some b =>
      match readChunks chunks rest with
      | .error e => .error e
      | .ok tail => .ok (b ++ tail)

/-- The bytes of `assembled.pkg.tar.zst` when every chunk file is
present: the concatenation of chunks `1..=total_chunks`. -/
def assembledBytes (s : UploadSession) (chunks : Nat → Option (List Nat)) : List Nat :=
  ((List.range' 1 s.totalChunks).map (fun i => (chunks i).getD [])).flatten

/-- `UploadSessionStore::assemble_chunks` from `src/upload.rs` (lines
465-532): require a live session, require `is_complete`, concatenate the
chunk files while hashing, then check the assembled size against
`file_size` and — only when the client supplied one — the SHA-256
against the expected value.  The SHA-256 of the external `sha2` crate is
abstracted as the `hash` parameter. -/
def assembleChunks (hash : List Nat → String) (sessionOpt : Option UploadSession)
    (chunks : Nat → Option (List Nat)) : Except UploadError (List Nat) :=
  match sessionOpt with
  | none => .error (.sessionNotFound "")
  | some session =>
    if ¬ session.isComplete then
      .error (.incomplete session.missingChunks)
    else
      match readChunks chunks (List.range' 1 session.totalChunks) with
      | .error e => .error e
      | .ok data =>
        if data.length ≠ session.fileSize then
          .error (.sizeMismatch session.fileSize data.length)
        else
          match session.sha256 with
          | some expectedHash =>
            let actualHash := hash data
            if actualHash ≠ expectedHash then
              .error (.checksumMismatch expectedHash actualHash)
            else .ok data
          | none => .ok data

/-- The on-disk staging directory `<data>/.uploads/<upload_id>/` of one
session, as `delete_session` observes it: `none` when the directory does
not exist; otherwise the sizes of the entries of the `chunks/`
subdirectory (`none` when that subdirectory is absent). -/
structure StagingDir where
  chunkSizes : Option (List Nat)
  deriving DecidableEq

/-- `UploadSessionStore::delete_session` from `src/upload.rs` (lines
323-353) over the in-memory session map and the staging directory.
`upload_dir` (lines 356-363) first requires `upload_id` to parse as a
UUID (the external `uuid` crate, abstracted as `isUuid`); a missing
directory is not an error — the function counts zero chunks and zero
bytes, removes the id from the map, and succeeds. -/
def deleteSession (isUuid : String → Bool) (uploadId : String)
    (sessions : List (String × UploadSession)) (dir : Option StagingDir) :
    Except Error ((Nat × Nat) × List (String × UploadSession)) :=
  if ¬ isUuid uploadId then
    .error (.invalidPackage ("Invalid upload ID format: " ++ uploadId))
  else
    let remaining := sessions.filter (fun p => p.1 ≠ uploadId)
    match dir with
    | none => .ok ((0, 0), remaining)
    | some d =>
      match d.chunkSizes with
      | none => .ok ((0, 0), remaining)
      | some sizes => .ok ((sizes.length, sizes.sum), remaining)

/-- The response body of `abort_upload` from `src/api/upload.rs`
(lines 91-100, 455-468). -/
structure AbortUploadResponse where
  uploadId : String
  deletedChunks : Nat
  bytesFreed : Nat
  deriving DecidableEq, Repr

/-- `abort_upload` from `src/api/upload.rs` (lines 455-468): run
`delete_session` and wrap the counts in the response. -/
def abortUpload (isUuid : String → Bool) (uploadId : String)
    (sessions : List (String × UploadSession)) (dir : Option StagingDir) :
    Except Error AbortUploadResponse :=
  match deleteSession isUuid uploadId sessions dir with
  | .error e => .error e
  | .ok ((deletedChunks, bytesFreed), _) =>
    .ok { uploadId := uploadId, deletedChunks := deletedChunks, bytesFreed := bytesFreed }

/-- **C3** For every session with `total_chunks = k` whose `chunk_size`
is positive (as `initiate` guarantees), and every body `b`: a chunk
index outside `1..k` is rejected; a chunk `i < k` is accepted iff its
length equals `chunk_size`; the final chunk `k` is accepted iff its
length equals `file_size mod chunk_size`, or `chunk_size` when that
modulus is zero. -/
theorem c3_chunk_size_discipline (md5 : List Nat → String) (s : UploadSession)
    (_hcs : 0 < s.chunkSize) (i : Nat) (b : List Nat) :
    ((i = 0 ∨ s.totalChunks < i) →
      storeChunk md5 (some s) i b = .error (.chunkOutOfRange i s.totalChunks)) ∧
    (1 ≤ i → i < s.totalChunks →
      ((∃ r, storeChunk md5 (some s) i b = .ok r) ↔ b.length = s.chunkSize)) ∧
    (i = s.totalChunks → 1 ≤ i →
      ((∃ r, storeChunk md5 (some s) i b = .ok r) ↔
        b.length =
          (if s.fileSize % s.chunkSize = 0 then s.chunkSize else s.fileSize % s.chunkSize))) := by
  refine ⟨?_, ?_, ?_⟩
  · intro h
    have hc : (decide (i < 1) || decide (i > s.totalChunks)) = true := by
      rcases h with rfl | h
      · simp
      · simp [h]
    simp only [storeChunk]
    simp only [hc]
    rfl
  · intro h1 hk
    simp only [storeChunk]
    rw [if_neg (by simp; omega), if_pos hk]
    by_cases hb : b.length = s.chunkSize
    · simp [hb]
    · simp [hb]
  · intro hik h1
    simp only [storeChunk]
    rw [if_neg (by simp; omega), if_neg (by omega : ¬ i < s.totalChunks)]
    by_cases hb : b.length =
        (if s.fileSize % s.chunkSize = 0 then s.chunkSize else s.fileSize % s.chunkSize)
    · rw [if_neg (by simpa using hb)]
      simp [hb]
    · rw [if_pos (by simpa using hb)]
      simp [hb]

/-- Witness for C3: the final (and only) chunk of a 5-byte single-chunk
session is accepted exactly at 5 bytes. -/
theorem c3_chunk_size_discipline_witness :
    ∃ r, storeChunk (fun _ => "md5") (some
      { uploadId := "u", filename := "a-1.0.0-1-x86_64.pkg.tar.zst", fileSize := 5,
        sha256 := none, repo := "sw1nn", arch := "x86_64", chunkSize := 8, totalChunks := 1,
        hasSignature := false, expired := false, uploadedChunks := ∅ }) 1 [0, 1, 2, 3, 4] = .ok r := by
  have h := (c3_chunk_size_discipline (fun _ => "md5")
    { uploadId := "u", filename := "a-1.0.0-1-x86_64.pkg.tar.zst", fileSize := 5,
      sha256 := none, repo := "sw1nn", arch := "x86_64", chunkSize := 8, totalChunks := 1,
      hasSignature := false, expired := false, uploadedChunks := ∅ }
    (by decide) 1 [0, 1, 2, 3, 4]).2.2 rfl (by decide)
  exact h.mpr (by decide)

/-- **C9** Aborting an upload whose `upload_id` is a well-formed UUID but
has no live session and no staging directory succeeds and reports 0
deleted chunks and 0 bytes freed (whatever the session map holds, the
return value ignores it); only an `upload_id` that fails UUID parsing
makes `delete_session` fail. -/
theorem c9_abort_missing_session (isUuid : String → Bool) (uploadId : String)
    (sessions : List (String × UploadSession)) (dir : Option StagingDir) :
    (isUuid uploadId = true → dir = none →
      deleteSession isUuid uploadId sessions dir =
        .ok ((0, 0), sessions.filter (fun p => p.1 ≠ uploadId)) ∧
      abortUpload isUuid uploadId sessions dir =
        .ok { uploadId := uploadId, deletedChunks := 0, bytesFreed := 0 }) ∧
    (isUuid uploadId = true → ∃ r, deleteSession isUuid uploadId sessions dir = .ok r) ∧
    (isUuid uploadId = false →
      deleteSession isUuid uploadId sessions dir =
        .error (.invalidPackage ("Invalid upload ID format: " ++ uploadId))) := by
  refine ⟨?_, ?_, ?_⟩
  · intro hu hd
    subst hd
    constructor
    · unfold deleteSession
      simp [hu]
    · unfold abortUpload deleteSession
      simp [hu]
  · intro hu
    unfold deleteSession
    rw [if_neg (by simp [hu])]
    cases dir with
    | none => exact ⟨_, rfl⟩
    | some d =>
      cases hcs : d.chunkSizes with
      | none => simp only [hcs]; exact ⟨_, rfl⟩
      | some sizes => simp only [hcs]; exact ⟨_, rfl⟩
  · intro hu
    unfold deleteSession
    simp [hu]

/-- Witness for C9: a concrete "valid-UUID" id with an empty session map
and no staging directory aborts with zero counts. -/
theorem c9_abort_missing_session_witness :
    deleteSession (fun _ => true) "5b1f" [] none = .ok ((0, 0), []) ∧
    abortUpload (fun _ => true) "5b1f" [] none =
      .ok { uploadId := "5b1f", deletedChunks := 0, bytesFreed := 0 } := by
  simpa using (c9_abort_missing_session (fun _ => true) "5b1f" [] none).1 rfl rfl

/-- The `is_complete` check of the source (count equality plus
membership of every index in `1..=total_chunks`) holds exactly when
`uploaded_chunks` is the set `{1..total_chunks}`. -/
theorem isComplete_iff (s : UploadSession) :
    s.isComplete = true ↔ s.uploadedChunks = Finset.Icc 1 s.totalChunks := by
  unfold UploadSession.isComplete
  rw [Bool.and_eq_true, beq_iff_eq, List.all_eq_true]
  constructor
  · rintro ⟨hcard, hmem⟩
    have hsub : Finset.Icc 1 s.totalChunks ⊆ s.uploadedChunks := by
      intro n hn
      rw [Finset.mem_Icc] at hn
      have := hmem n (by rw [List.mem_range'_1]; omega)
      simpa using this
    have := Finset.eq_of_subset_of_card_le hsub
      (by rw [hcard, Nat.card_Icc]; omega)
    exact this.symm
  · intro h
    refine ⟨by rw [h, Nat.card_Icc]; omega, ?_⟩
    intro n hn
    rw [List.mem_range'_1] at hn
    rw [h]
    simp only [decide_eq_true_eq, Finset.mem_Icc]
    omega

/-- When every requested chunk file is present, the read loop succeeds
and returns the concatenation of the chunk contents. -/
theorem readChunks_ok_of_present (chunks : Nat → Option (List Nat)) :
    ∀ is : List Nat, (∀ i ∈ is, (chunks i).isSome = true) →
      readChunks chunks is = .ok ((is.map (fun i => (chunks i).getD [])).flatten) := by
  intro is
  induction is with
  | nil => intro _; rfl
  | cons i rest ih =>
    intro h
    have hi := h i (List.mem_cons_self i rest)
    obtain ⟨b, hb⟩ := Option.isSome_iff_exists.mp hi
    have hrest := ih (fun j hj => h j (List.mem_cons_of_mem i hj))
    unfold readChunks
    rw [hb, hrest]
    simp [hb]

/-- Whenever the read loop succeeds, its output is that concatenation. -/
theorem readChunks_ok_elim (chunks : Nat → Option (List Nat)) :
    ∀ (is : List Nat) (data : List Nat), readChunks chunks is = .ok data →
      data = (is.map (fun i => (chunks i).getD [])).flatten := by
  intro is
  induction is with
  | nil =>
    intro data h
    simpa [readChunks] using h.symm
  | cons i rest ih =>
    intro data h
    unfold readChunks at h
    cases hi : chunks i with
    | none => rw [hi] at h; exact absurd h (by simp)
    | some b =>
      rw [hi] at h
      cases hr : readChunks chunks rest with
      | error e => rw [hr] at h; exact absurd h (by simp)
      | ok tail =>
        rw [hr] at h
        have := ih tail hr
        simp only [Except.ok.injEq] at h
        subst h
        simp [hi, this]

/-- The chunk-size discipline of `store_chunk` together with the session
shape produced by `initiate` (`total_chunks = ⌈file_size/chunk_size⌉`,
`1 ≤ chunk_size`, `1 ≤ file_size`) makes the enforced chunk sizes sum to
exactly `file_size`. -/
theorem sum_expectedChunkSize (s : UploadSession)
    (hcs : 0 < s.chunkSize) (hfs : 0 < s.fileSize)
    (htc : s.totalChunks = (s.fileSize + s.chunkSize - 1) / s.chunkSize) :
    ((List.range' 1 s.totalChunks).map (expectedChunkSize s)).sum = s.fileSize := by
  have hqr := Nat.div_add_mod s.fileSize s.chunkSize
  have hrlt : s.fileSize % s.chunkSize < s.chunkSize := Nat.mod_lt _ hcs
  -- compute total_chunks from the ceiling expression
  by_cases hz : s.fileSize % s.chunkSize = 0
  · -- exact multiple: total_chunks = file_size / chunk_size
    have hq1 : 1 ≤ s.fileSize / s.chunkSize := by
      rcases Nat.eq_zero_or_pos (s.fileSize / s.chunkSize) with h | h
      · rw [h, Nat.mul_zero, Nat.zero_add] at hqr
        omega
      · exact h
    have hk : s.totalChunks = s.fileSize / s.chunkSize := by
      rw [htc]
      have h1 : s.fileSize + s.chunkSize - 1 =
          (s.chunkSize - 1) + s.chunkSize * (s.fileSize / s.chunkSize) := by omega
      rw [h1, Nat.add_mul_div_left _ _ hcs, Nat.div_eq_of_lt (by omega)]
      omega
    obtain ⟨m, hm⟩ : ∃ m, s.totalChunks = m + 1 := ⟨s.totalChunks - 1, by omega⟩
    rw [hm, List.range'_concat]
    simp only [Nat.one_mul]
    rw [List.map_append, List.sum_append]
    have hmap : (List.range' 1 m).map (expectedChunkSize s) =
        (List.range' 1 m).map (fun _ => s.chunkSize) := by
      apply List.map_congr_left
      intro a ha
      rw [List.mem_range'_1] at ha
      unfold expectedChunkSize
      rw [if_pos (by omega)]
    rw [hmap]
    have hconst : ((List.range' 1 m).map (fun _ => s.chunkSize)).sum = m * s.chunkSize := by
      rw [List.map_const']
      simp [List.sum_replicate, smul_eq_mul]
    rw [hconst]
    have hlast : expectedChunkSize s (1 + m) = s.chunkSize := by
      unfold expectedChunkSize
      rw [if_neg (by omega), if_pos hz]
    simp only [List.map_cons, List.map_nil, List.sum_cons, List.sum_nil, hlast]
    have hfseq : s.fileSize = (m + 1) * s.chunkSize := by
      have h1 : m + 1 = s.fileSize / s.chunkSize := by omega
      calc s.fileSize = s.chunkSize * (s.fileSize / s.chunkSize) := by omega
        _ = (m + 1) * s.chunkSize := by rw [← h1]; ring
    rw [hfseq]
    ring
  · -- trailing partial chunk: total_chunks = file_size / chunk_size + 1
    have hk : s.totalChunks = s.fileSize / s.chunkSize + 1 := by
      rw [htc]
      have hd : s.chunkSize * (s.fileSize / s.chunkSize + 1) =
          s.chunkSize * (s.fileSize / s.chunkSize) + s.chunkSize := by ring
      have h1 : s.fileSize + s.chunkSize - 1 =
          (s.fileSize % s.chunkSize - 1) + s.chunkSize * (s.fileSize / s.chunkSize + 1) := by
        omega
      rw [h1, Nat.add_mul_div_left _ _ hcs, Nat.div_eq_of_lt (by omega)]
      omega
    rw [hk, List.range'_concat]
    simp only [Nat.one_mul]
    rw [List.map_append, List.sum_append]
    have hmap : (List.range' 1 (s.fileSize / s.chunkSize)).map (expectedChunkSize s) =
        (List.range' 1 (s.fileSize / s.chunkSize)).map (fun _ => s.chunkSize) := by
      apply List.map_congr_left
      intro a ha
      rw [List.mem_range'_1] at ha
      unfold expectedChunkSize
      rw [if_pos (by omega)]
    rw [hmap]
    have hconst : ((List.range' 1 (s.fileSize / s.chunkSize)).map (fun _ => s.chunkSize)).sum =
        (s.fileSize / s.chunkSize) * s.chunkSize := by
      rw [List.map_const']
      simp [List.sum_replicate, smul_eq_mul]
    rw [hconst]
    have hlast : expectedChunkSize s (1 + s.fileSize / s.chunkSize) =
        s.fileSize % s.chunkSize := by
      unfold expectedChunkSize
      rw [if_neg (by omega), if_neg hz]
    simp only [List.map_cons, List.map_nil, List.sum_cons, List.sum_nil, hlast]
    have hcomm : (s.fileSize / s.chunkSize) * s.chunkSize =
        s.chunkSize * (s.fileSize / s.chunkSize) := by
      ring
    omega

/-- The read loop can only fail by hitting a missing chunk file. -/
theorem readChunks_error_elim (chunks : Nat → Option (List Nat)) :
    ∀ (is : List Nat) (e : UploadError), readChunks chunks is = .error e →
      ∃ i, e = .ioMissingChunk i := by
  intro is
  induction is with
  | nil => intro e h; exact absurd h (by simp [readChunks])
  | cons i rest ih =>
    intro e h
    unfold readChunks at h
    cases hi : chunks i with
    | none =>
      rw [hi] at h
      simp only [Except.error.injEq] at h
      exact ⟨i, h.symm⟩
    | some b =>
      rw [hi] at h
      cases hr : readChunks chunks rest with
      | error e2 =>
        rw [hr] at h
        simp only [Except.error.injEq] at h
        subst h
        exact ih e2 hr
      | ok tail => rw [hr] at h; exact absurd h (by simp)

/-- Anatomy of a successful assembly: the session was complete, the
output is the concatenation of the staged chunks, its length equals
`file_size`, and it matches any client-supplied SHA-256. -/
theorem assembleChunks_ok_elim (hash : List Nat → String) (s : UploadSession)
    (chunks : Nat → Option (List Nat)) (data : List Nat)
    (hres : assembleChunks hash (some s) chunks = .ok data) :
    s.isComplete = true ∧ data = assembledBytes s chunks ∧
      data.length = s.fileSize ∧ (∀ h, s.sha256 = some h → hash data = h) := by
  simp only [assembleChunks] at hres
  split at hres
  · exact absurd hres (by simp)
  · rename_i hic
    split at hres
    · exact absurd hres (by simp)
    · rename_i d hr
      have hd : d = assembledBytes s chunks := readChunks_ok_elim chunks _ d hr
      split at hres
      · exact absurd hres (by simp)
      · rename_i hlen
        split at hres
        · rename_i expected hsha
          split at hres
          · exact absurd hres (by simp)
          · rename_i hneq
            simp only [Except.ok.injEq] at hres
            subst hres
            refine ⟨not_not.mp hic, hd, by omega, ?_⟩
            intro h hcon
            rw [hsha] at hcon
            injection hcon with hcon2
            rw [← hcon2]
            exact not_not.mp hneq
        · rename_i hsha
          simp only [Except.ok.injEq] at hres
          subst hres
          refine ⟨not_not.mp hic, hd, by omega, ?_⟩
          intro h hcon
          rw [hsha] at hcon
          cases hcon

/-- Anatomy of a checksum rejection: it only arises when the client
supplied exactly the `expected` hash and the actual hash of the
assembled bytes is the differing `actual`. -/
theorem assembleChunks_checksum_elim (hash : List Nat → String) (s : UploadSession)
    (chunks : Nat → Option (List Nat)) (e a : String)
    (hres : assembleChunks hash (some s) chunks = .error (.checksumMismatch e a)) :
    s.sha256 = some e ∧ a = hash (assembledBytes s chunks) ∧ a ≠ e := by
  simp only [assembleChunks] at hres
  split at hres
  · simp only [Except.error.injEq] at hres
    cases hres
  · rename_i hic
    split at hres
    · rename_i e2 hr
      simp only [Except.error.injEq] at hres
      subst hres
      obtain ⟨i, hi⟩ := readChunks_error_elim chunks _ _ hr
      cases hi
    · rename_i d hr
      have hd : d = assembledBytes s chunks := readChunks_ok_elim chunks _ d hr
      split at hres
      · simp only [Except.error.injEq] at hres
        cases hres
      · rename_i hlen
        split at hres
        · rename_i expected hsha
          split at hres
          · rename_i hneq
            simp only [Except.error.injEq, UploadError.checksumMismatch.injEq] at hres
            obtain ⟨he, ha⟩ := hres
            subst he
            subst ha
            exact ⟨hsha, by rw [hd], fun hcon => hneq hcon⟩
          · exact absurd hres (by simp)
        · exact absurd hres (by simp)

/-- **C2** (amended) For every session shaped as `initiate` creates it
(`1 ≤ chunk_size`, `1 ≤ file_size`, `total_chunks = ⌈file_size/chunk_size⌉`)
whose staged chunk files all have the lengths `store_chunk` enforces and
whose client-supplied SHA-256 — when present — matches the assembled
bytes, `complete`'s assembly step fails (with the `InvalidPackage`
missing-chunks error) iff `uploaded_chunks ≠ {1..total_chunks}`, and
otherwise succeeds producing exactly `file_size` bytes.  (The original
claim, quantified over all sessions, is refuted by
`c2_completeness_counterexample`: a checksum mismatch also fails.) -/
theorem c2_completeness (hash : List Nat → String) (s : UploadSession)
    (chunks : Nat → Option (List Nat))
    (hcs : 0 < s.chunkSize) (hfs : 0 < s.fileSize)
    (htc : s.totalChunks = (s.fileSize + s.chunkSize - 1) / s.chunkSize)
    (hsizes : ∀ i, 1 ≤ i → i ≤ s.totalChunks →
      ∃ b, chunks i = some b ∧ b.length = expectedChunkSize s i)
    (hsha : ∀ h, s.sha256 = some h → hash (assembledBytes s chunks) = h) :
    (s.uploadedChunks ≠ Finset.Icc 1 s.totalChunks →
      assembleChunks hash (some s) chunks = .error (.incomplete s.missingChunks)) ∧
    (s.uploadedChunks = Finset.Icc 1 s.totalChunks →
      assembleChunks hash (some s) chunks = .ok (assembledBytes s chunks) ∧
      (assembledBytes s chunks).length = s.fileSize) := by
  constructor
  · intro hne
    have hic : ¬ s.isComplete = true := fun hcon => hne ((isComplete_iff s).mp hcon)
    simp only [assembleChunks]
    rw [if_pos hic]
  · intro heq
    have hic : s.isComplete = true := (isComplete_iff s).mpr heq
    have hpresent : ∀ i ∈ List.range' 1 s.totalChunks, (chunks i).isSome = true := by
      intro i hi
      rw [List.mem_range'_1] at hi
      obtain ⟨b, hb, _⟩ := hsizes i (by omega) (by omega)
      rw [hb]
      rfl
    have hread : readChunks chunks (List.range' 1 s.totalChunks) =
        .ok (assembledBytes s chunks) := by
      unfold assembledBytes
      exact readChunks_ok_of_present chunks _ hpresent
    have hlen : (assembledBytes s chunks).length = s.fileSize := by
      unfold assembledBytes
      rw [List.length_flatten, List.map_map]
      have hcong : (List.range' 1 s.totalChunks).map
            (List.length ∘ fun i => (chunks i).getD []) =
          (List.range' 1 s.totalChunks).map (expectedChunkSize s) := by
        apply List.map_congr_left
        intro i hi
        rw [List.mem_range'_1] at hi
        obtain ⟨b, hb, hbl⟩ := hsizes i (by omega) (by omega)
        simp [Function.comp, hb, hbl]
      rw [hcong, sum_expectedChunkSize s hcs hfs htc]
    refine ⟨?_, hlen⟩
    simp only [assembleChunks]
    rw [if_neg (by simp [hic])]
    split
    · rename_i e he
      rw [hread] at he
      cases he
    · rename_i d hd2
      rw [hread] at hd2
      simp only [Except.ok.injEq] at hd2
      subst hd2
      rw [if_neg (by simp [hlen])]
      split
      · rename_i expected hsha2
        rw [if_neg (by simp [hsha expected hsha2])]
      · rfl

/-- Session of the C2 witness: two 1-byte chunks, both uploaded, with a
matching client checksum. -/
def c2SessionW : UploadSession :=
  { uploadId := "w2", filename := "c-1.0.0-1-x86_64.pkg.tar.zst", fileSize := 2,
    sha256 := some "aa", repo := "sw1nn", arch := "x86_64", chunkSize := 1, totalChunks := 2,
    hasSignature := false, expired := false, uploadedChunks := {1, 2} }

/-- Staged chunk files of the C2 witness. -/
def c2ChunksW : Nat → Option (List Nat) :=
  fun i => if i = 1 then some [10] else if i = 2 then some [20] else none

/-- Abstracted SHA-256 of the C2 witness. -/
def c2HashW : List Nat → String := fun _ => "aa"

/-- Witness for C2: the complete two-chunk session assembles to exactly
its two `file_size` bytes. -/
theorem c2_completeness_witness :
    assembleChunks c2HashW (some c2SessionW) c2ChunksW = .ok [10, 20] ∧
    ([10, 20] : List Nat).length = c2SessionW.fileSize := by
  have h := (c2_completeness c2HashW c2SessionW c2ChunksW (by decide) (by decide) (by decide)
    (by
      intro i h1 h2
      have h2a : i ≤ 2 := h2
      interval_cases i
      · exact ⟨[10], rfl, by decide⟩
      · exact ⟨[20], rfl, by decide⟩)
    (by
      intro h hh
      have hh2 : "aa" = h :=
        Option.some.inj (show (some "aa" : Option String) = some h from hh)
      subst hh2
      rfl)).2 (by decide)
  have hab : assembledBytes c2SessionW c2ChunksW = [10, 20] := by decide
  rw [hab] at h
  exact ⟨h.1, by decide⟩

/-- Session of the C2 counterexample: complete single-chunk upload whose
client-supplied checksum does not match the staged byte. -/
def c2SessionCx : UploadSession :=
  { uploadId := "cx2", filename := "d-1.0.0-1-x86_64.pkg.tar.zst", fileSize := 1,
    sha256 := some "00", repo := "sw1nn", arch := "x86_64", chunkSize := 1, totalChunks := 1,
    hasSignature := false, expired := false, uploadedChunks := {1} }

/-- Staged chunk file of the C2 counterexample. -/
def c2ChunksCx : Nat → Option (List Nat) := fun i => if i = 1 then some [7] else none

/-- Abstracted SHA-256 of the C2 counterexample. -/
def c2HashCx : List Nat → String := fun _ => "ff"

/-- Counterexample to C2 as stated: a session with
`uploaded_chunks = {1..total_chunks}` on which `complete`'s assembly
still fails with `InvalidPackage` (checksum mismatch), so failure is not
equivalent to incompleteness. -/
theorem c2_completeness_counterexample :
    c2SessionCx.uploadedChunks = Finset.Icc 1 c2SessionCx.totalChunks ∧
    assembleChunks c2HashCx (some c2SessionCx) c2ChunksCx =
      .error (.checksumMismatch "00" "ff") ∧
    (UploadError.checksumMismatch "00" "ff").toError =
      .invalidPackage "Checksum mismatch: expected 00, got ff" := by
  refine ⟨by decide, by decide, rfl⟩

/-- **C4** For every session: a successful `complete` assembly implies
the assembled bytes match any client-supplied SHA-256 (equivalently, a
mismatch forces failure); when the supplied value matches the assembled
bytes the result is never the checksum-mismatch rejection; and when no
SHA-256 was supplied the checksum-mismatch rejection can never occur. -/
theorem c4_checksum_honoring (hash : List Nat → String) (s : UploadSession)
    (chunks : Nat → Option (List Nat)) :
    (∀ h data, s.sha256 = some h →
      assembleChunks hash (some s) chunks = .ok data → hash data = h) ∧
    (∀ h, s.sha256 = some h → hash (assembledBytes s chunks) ≠ h →
      ∀ data, assembleChunks hash (some s) chunks ≠ .ok data) ∧
    (∀ h, s.sha256 = some h → hash (assembledBytes s chunks) = h →
      ∀ e a, assembleChunks hash (some s) chunks ≠ .error (.checksumMismatch e a)) ∧
    (s.sha256 = none →
      ∀ e a, assembleChunks hash (some s) chunks ≠ .error (.checksumMismatch e a)) := by
  refine ⟨?_, ?_, ?_, ?_⟩
  · intro h data hsha hres
    exact (assembleChunks_ok_elim hash s chunks data hres).2.2.2 h hsha
  · intro h hsha hne data hres
    obtain ⟨_, hd, _, hmatch⟩ := assembleChunks_ok_elim hash s chunks data hres
    exact hne (by rw [← hd]; exact hmatch h hsha)
  · intro h hsha heq e a hres
    obtain ⟨hsome, ha, hne⟩ := assembleChunks_checksum_elim hash s chunks e a hres
    rw [hsha] at hsome
    injection hsome with he
    exact hne (by rw [ha, heq, he])
  · intro hnone e a hres
    obtain ⟨hsome, _, _⟩ := assembleChunks_checksum_elim hash s chunks e a hres
    rw [hnone] at hsome
    cases hsome

/-- Session of the C4 witness: complete single-chunk upload whose
client-supplied checksum matches the abstracted hash. -/
def c4SessionW : UploadSession :=
  { uploadId := "w4", filename := "e-1.0.0-1-x86_64.pkg.tar.zst", fileSize := 1,
    sha256 := some "aa", repo := "sw1nn", arch := "x86_64", chunkSize := 1, totalChunks := 1,
    hasSignature := false, expired := false, uploadedChunks := {1} }

/-- Staged chunk file of the C4 witness. -/
def c4ChunksW : Nat → Option (List Nat) := fun i => if i = 1 then some [9] else none

/-- Abstracted SHA-256 of the C4 witness. -/
def c4HashW : List Nat → String := fun _ => "aa"

/-- Witness for C4: with a matching supplied checksum, assembly is not
rejected for checksum reasons. -/
theorem c4_checksum_honoring_witness :
    assembleChunks c4HashW (some c4SessionW) c4ChunksW ≠
      .error (.checksumMismatch "aa" "aa") :=
  (c4_checksum_honoring c4HashW c4SessionW c4ChunksW).2.2.1 "aa" rfl rfl "aa" "aa"

/-! ## Package records and storage listing (`src/models/package.rs`,
`src/storage/mod.rs`) -/

/-- `Package` from `src/models/package.rs`: the persistent metadata
record of an accepted archive.  `created_at` (a UTC instant) is an
abstract timestamp. -/
structure Package where
  name : String
  version : String
  arch : String
  repo : String
  filename : String
  sha256 : String
  size : Nat
  createdAt : Nat
  deriving DecidableEq, Repr

/-- One directory entry of `<repo>/os/<arch>/metadata/` as
`list_packages` observes it: whether the file extension is `json`, and
the `serde_json::from_str::<Package>` result of its contents (`none`
when deserialisation fails, in which case the entry is skipped). -/
structure MetaEntry where
  isJson : Bool
  parsed : Option Package
  deriving DecidableEq

/-- `Storage::list_packages` from `src/storage/mod.rs` (lines 254-275):
resolve `<repo>/os/<arch>` via `repo_dir` and look in its `metadata`
subdirectory (`dir = none` models a missing directory, which yields the
empty list); otherwise return every entry whose extension is `json` and
whose contents deserialise as a `Package`.  No field of the record —
in particular not `arch` — is consulted. -/
def listPackages (basePath : List String) (withinBase : WithinBaseCheck)
    (repo arch : String) (dir : Option (List MetaEntry)) : Result (List Package) :=
  match repoDir basePath withinBase repo arch with
  | .error e => .error e
  | .ok _ =>
    match dir with
    | none => .ok []
    | some entries =>
      .ok ((entries.filter (fun e => e.isJson)).filterMap (fun e => e.parsed))

/-- **C7** (amended) For every repo and arch that pass component
validation, `list` returns exactly the `Package` records parsed from the
`.json` entries of the per-arch metadata directory
`<repo>/os/<arch>/metadata`, with **no** filtering on the records'
`arch` field (and the empty list when the directory is missing).  The
original claim's filter `pkg.arch ∈ {arch, "any"}` is refuted by
`c7_list_filter_counterexample`. -/
theorem c7_list_packages (basePath : List String) (withinBase : WithinBaseCheck)
    (repo arch : String) (entries : List MetaEntry)
    (hrepo : validatePathComponent repo = .ok ())
    (harch : validatePathComponent arch = .ok ())
    (hwb : withinBase (basePath ++ [repo, "os", arch]) = .ok ()) :
    listPackages basePath withinBase repo arch none = .ok [] ∧
    listPackages basePath withinBase repo arch (some entries) =
      .ok ((entries.filter (fun e => e.isJson)).filterMap (fun e => e.parsed)) ∧
    ∀ p, p ∈ (entries.filter (fun e => e.isJson)).filterMap (fun e => e.parsed) ↔
      ∃ e ∈ entries, e.isJson = true ∧ e.parsed = some p := by
  have hrd : repoDir basePath withinBase repo arch = .ok (basePath ++ [repo, "os", arch]) := by
    unfold repoDir
    rw [hrepo, harch, hwb]
  refine ⟨?_, ?_, ?_⟩
  · unfold listPackages
    rw [hrd]
  · unfold listPackages
    rw [hrd]
  · intro p
    constructor
    · intro hp
      rw [List.mem_filterMap] at hp
      obtain ⟨e, he, hpe⟩ := hp
      rw [List.mem_filter] at he
      exact ⟨e, he.1, he.2, hpe⟩
    · rintro ⟨e, he, hj, hpe⟩
      rw [List.mem_filterMap]
      exact ⟨e, List.mem_filter.mpr ⟨he, hj⟩, hpe⟩

/-- Witness for C7: concrete repo/arch with a missing metadata directory
lists no packages. -/
theorem c7_list_packages_witness :
    listPackages ["data"] (fun _ => .ok ()) "sw1nn" "x86_64" none = .ok [] :=
  (c7_list_packages ["data"] (fun _ => .ok ()) "sw1nn" "x86_64" []
    (by decide) (by decide) rfl).1

/-- The `aarch64` record of the C7 counterexample, sitting in the
`x86_64` metadata directory. -/
def c7PackageCx : Package :=
  { name := "foo", version := "1.0.0-1", arch := "aarch64", repo := "sw1nn",
    filename := "foo-1.0.0-1-aarch64.pkg.tar.zst", sha256 := "s", size := 1, createdAt := 0 }

/-- The metadata directory entry holding `c7PackageCx`. -/
def c7EntryCx : MetaEntry := { isJson := true, parsed := some c7PackageCx }

/-- Counterexample to C7 as stated: `list_packages` returns a record
whose `arch` is neither the requested architecture nor `"any"` — the
code applies no such filter. -/
theorem c7_list_filter_counterexample :
    listPackages ["data"] (fun _ => .ok ()) "sw1nn" "x86_64" (some [c7EntryCx]) =
      .ok [c7PackageCx] ∧
    c7PackageCx.arch ≠ "x86_64" ∧ c7PackageCx.arch ≠ "any" := by
  refine ⟨by decide, by decide, by decide⟩

/-! ## DB update actor (`src/db_actor.rs`) -/

/-- `DbUpdateActor::next_timeout` from `src/db_actor.rs` (lines 217-234),
with instants and durations in milliseconds.  `pending` carries the
`last_requested` instants of the pending map's values; tokio's
`saturating_duration_since` is `Nat` truncated subtraction; `min()` over
the iterator is `List.min?`, whose `unwrap_or(100)` default is
unreachable for a non-empty map; the final `.max(100)` is the 100 ms
floor.  When the map is empty the wait is a fixed 3600 s. -/
def nextTimeoutMs (pending : List Nat) (debounceMs nowMs : Nat) : Nat :=
  if pending.isEmpty then 3600 * 1000
  else
    max (((pending.map (fun last => last + debounceMs - nowMs)).min?).getD 100) 100

/-- **C8** (amended) The computed wait is the minimum over pending
entries of `saturating(last_requested + debounce − now)` clamped *below*
to 100 ms; no upper clamp is applied, so the 1 h bound of the claim only
holds when the debounce itself is at most 1 h (and requests lie in the
past); with an empty pending map the wait is exactly 1 h.  The missing
upper clamp is exhibited by `c8_next_timeout_counterexample`. -/
theorem c8_next_timeout (pending : List Nat) (debounceMs nowMs : Nat) :
    (pending = [] → nextTimeoutMs pending debounceMs nowMs = 3600 * 1000) ∧
    (pending ≠ [] →
      ∃ m, (pending.map (fun last => last + debounceMs - nowMs)).min? = some m ∧
        nextTimeoutMs pending debounceMs nowMs = max m 100) ∧
    100 ≤ nextTimeoutMs pending debounceMs nowMs ∧
    ((∀ l ∈ pending, l ≤ nowMs) → debounceMs ≤ 3600 * 1000 →
      nextTimeoutMs pending debounceMs nowMs ≤ 3600 * 1000) := by
  refine ⟨?_, ?_, ?_, ?_⟩
  · intro h
    subst h
    rfl
  · intro h
    cases hm : (pending.map (fun last => last + debounceMs - nowMs)).min? with
    | none =>
      rw [List.min?_eq_none_iff, List.map_eq_nil_iff] at hm
      exact absurd hm h
    | some m =>
      refine ⟨m, rfl, ?_⟩
      unfold nextTimeoutMs
      rw [if_neg (by simp [h]), hm]
      rfl
  · unfold nextTimeoutMs
    split
    · omega
    · exact Nat.le_max_right _ _
  · intro hpast hdeb
    unfold nextTimeoutMs
    split
    · omega
    · rename_i hne
      cases hm : (pending.map (fun last => last + debounceMs - nowMs)).min? with
      | none =>
        rw [List.min?_eq_none_iff, List.map_eq_nil_iff] at hm
        subst hm
        simp at hne
      | some m =>
        have hmem : m ∈ pending.map (fun last => last + debounceMs - nowMs) :=
          List.min?_mem (fun a b => min_choice a b) hm
        rw [List.mem_map] at hmem
        obtain ⟨l, hl, hml⟩ := hmem
        have hlm : m ≤ debounceMs := by
          have := hpast l hl
          omega
        simp only [Option.getD_some]
        exact Nat.max_le.mpr ⟨by omega, by omega⟩

/-- Witness for C8: one pending entry requested at the current instant
with the default 10 s debounce wakes after exactly 10 s — within the
claimed clamp interval. -/
theorem c8_next_timeout_witness :
    nextTimeoutMs [5000] 10000 5000 = max 10000 100 := by
  obtain ⟨m, hm, hval⟩ := (c8_next_timeout [5000] 10000 5000).2.1 (by decide)
  have hm2 : m = 10000 := by
    have : ([5000].map (fun last => last + 10000 - 5000)).min? = some 10000 := by decide
    rw [this] at hm
    injection hm with h2
    exact h2.symm
  rw [hval, hm2]

/-- Counterexample to C8 as stated: with a 2 h debounce and one fresh
pending entry the computed wait is 2 h, outside the claimed
`[100 ms, 1 h]` clamp interval (the code never applies the upper
clamp). -/
theorem c8_next_timeout_counterexample :
    nextTimeoutMs [0] 7200000 0 = 7200000 ∧ ¬ (7200000 ≤ 3600 * 1000) := by
  exact ⟨by decide, by decide⟩

/-! ## `.PKGINFO` records and the upload completion flow
(`src/models/pkginfo.rs`, `src/api/upload.rs`) -/

/-- `PkgInfo` from `src/models/pkginfo.rs` (lines 5-24): the decoded
key/value block of `.PKGINFO`. -/
structure PkgInfo where
  pkgname : String
  pkgver : String
  pkgdesc : Option String
  url : Option String
  builddate : Option String
  packager : Option String
  size : Option Nat
  arch : String
  license : List String
  replaces : List String
  groups : List String
  conflicts : List String
  provides : List String
  backup : List String
  depends : List String
  optdepends : List String
  makedepends : List String
  checkdepends : List String
  deriving DecidableEq, Repr

/-- The `Package` record `complete_upload` builds (lines 344-360):
canonical filename `{pkgname}-{pkgver}-{arch}.pkg.tar.zst`, repository
taken from the session, SHA-256 and size of the assembled bytes,
creation time now. -/
def mkPackage (hash : List Nat → String) (session : UploadSession)
    (data : List Nat) (pkginfo : PkgInfo) (now : Nat) : Package :=
  { name := pkginfo.pkgname, version := pkginfo.pkgver, arch := pkginfo.arch,
    repo := session.repo,
    filename := pkginfo.pkgname ++ "-" ++ pkginfo.pkgver ++ "-" ++ pkginfo.arch ++
      ".pkg.tar.zst",
    sha256 := hash data, size := data.length, createdAt := now }

/-- The outcomes of the side effects `complete_upload`
(`src/api/upload.rs`, lines 291-439) performs, abstracted per call
site: the session lookup, the staged chunk files, the manifest length
`req.chunks.len()`, `extract_pkginfo` (zstd+tar decoding, outside the
pure model), `store_package_from_path`, `get_signature` together with
the signature write, the immediate `regenerate_repo_db`, the
`auto_cleanup_enabled` flag with `cleanup_old_versions`, the
post-cleanup `regenerate_repo_db`, and the final `delete_session`. -/
structure CompleteEnv where
  session : Option UploadSession
  chunks : Nat → Option (List Nat)
  manifestLen : Nat
  extract : List Nat → Except Error PkgInfo
  store : Package → Except Error Unit
  sigData : Option (List Nat)
  storeSig : Except Error Unit
  regenerate1 : Except Error Unit
  autoCleanupEnabled : Bool
  cleanup : Except Error (List Package)
  regenerate2 : Except Error Unit
  deleteSessionResult : Except Error Unit
  now : Nat

/-- The signature branch of `complete_upload` (lines 368-386): when the
session announced a signature, a present `signature.sig` is written next
to the archive (path building and write may fail, propagated by `?`);
an absent one is only a warning. -/
def signatureStep (session : UploadSession) (env : CompleteEnv) : Except Error Unit :=
  if session.hasSignature then
    match env.sigData with
    | some _ => env.storeSig
    | none => .ok ()
  else .ok ()

/-- `complete_upload` from `src/api/upload.rs` (lines 291-439).  Every
`?` of the source is an error-propagating match; the retention-cleanup
result is `unwrap_or_default()`-ed (lines 393-409), the post-cleanup
regeneration error (lines 422-429) and the session-deletion error
(lines 434-436) are logged and dropped. -/
def completeUpload (hash : List Nat → String) (env : CompleteEnv) : Except Error Package :=
  match env.session with
  | none => .error (.invalidPackage "Upload session not found")
  | some session =>
  if session.expired then
    .error (.invalidPackage "Upload session has expired")
  else if ¬ session.isComplete then
    .error (.invalidPackage
      ("Upload incomplete. Missing chunks: " ++ toString session.missingChunks))
  else if env.manifestLen ≠ session.totalChunks then
    .error (.invalidPackage "Chunk count mismatch")
  else
  match assembleChunks hash (some session) env.chunks with
  | .error e => .error e.toError
  | .ok data =>
  match env.extract data with
  | .error e => .error e
  | .ok pkginfo =>
  match env.store (mkPackage hash session data pkginfo env.now) with
  | .error e => .error e
  | .ok _ =>
  match signatureStep session env with
  | .error e => .error e
  | .ok _ =>
  match env.regenerate1 with
  | .error e => .error e
  | .ok _ =>
    -- auto-cleanup (failure logged, result defaulted to the empty list)
    let _deleted : List Package :=
      if env.autoCleanupEnabled then
        match env.cleanup with
        | .error _ => []
        | .ok deleted => deleted
      else []
    -- post-cleanup DB regeneration (failure logged and dropped)
    let _regen2 : Except Error Unit :=
      if _deleted ≠ [] then env.regenerate2 else .ok ()
    -- session staging cleanup (failure logged and dropped)
    let _cleanupSession : Except Error Unit := env.deleteSessionResult
    .ok (mkPackage hash session data pkginfo env.now)

/-- Once the handler has passed the store and signature steps, its
result is decided solely by the immediate post-upload DB regeneration:
success returns the created record, failure propagates — the cleanup,
post-cleanup-regeneration and session-deletion outcomes never matter. -/
theorem completeUpload_after_store (hash : List Nat → String) (env : CompleteEnv)
    (s : UploadSession) (data : List Nat) (pi : PkgInfo)
    (hs : env.session = some s) (hexp : s.expired = false)
    (hcomp : s.isComplete = true) (hman : env.manifestLen = s.totalChunks)
    (hasm : assembleChunks hash (some s) env.chunks = .ok data)
    (hext : env.extract data = .ok pi)
    (hstore : env.store (mkPackage hash s data pi env.now) = .ok ())
    (hsig : signatureStep s env = .ok ()) :
    completeUpload hash env =
      match env.regenerate1 with
      | .error e => .error e
      | .ok _ => .ok (mkPackage hash s data pi env.now) := by
  simp only [completeUpload]
  split
  · rename_i h0
    rw [hs] at h0
    cases h0
  · rename_i session h0
    rw [hs] at h0
    injection h0 with h0
    subst h0
    rw [if_neg (by simp [hexp]), if_neg (by simp [hcomp]), if_neg (by simp [hman])]
    split
    · rename_i e h1
      rw [hasm] at h1
      cases h1
    · rename_i d h1
      rw [hasm] at h1
      injection h1 with h1
      subst h1
      split
      · rename_i e h2
        rw [hext] at h2
        cases h2
      · rename_i pinfo h2
        rw [hext] at h2
        injection h2 with h2
        subst h2
        split
        · rename_i e h3
          rw [hstore] at h3
          cases h3
        · split
          · rename_i e h4
            rw [hsig] at h4
            cases h4
          · rfl

/-- **C6** (amended) Once the assembled package is durably stored (and
the signature step passed), `complete` returns the created `Package`
record regardless of the outcomes of retention cleanup, of the
post-cleanup DB regeneration, and of upload-session deletion — those
failures are only logged, and no hypothesis below constrains them.
Contrary to the original claim, however, a failure of the *immediate*
post-upload DB regeneration (`regenerate_repo_db(..).await?`,
`src/api/upload.rs` line 389) propagates and fails the operation even
though the package is already stored
(`c6_regen_failure_counterexample`). -/
theorem c6_post_store_failures (hash : List Nat → String) (env : CompleteEnv)
    (s : UploadSession) (data : List Nat) (pi : PkgInfo)
    (hs : env.session = some s) (hexp : s.expired = false)
    (hcomp : s.isComplete = true) (hman : env.manifestLen = s.totalChunks)
    (hasm : assembleChunks hash (some s) env.chunks = .ok data)
    (hext : env.extract data = .ok pi)
    (hstore : env.store (mkPackage hash s data pi env.now) = .ok ())
    (hsig : signatureStep s env = .ok ()) :
    (env.regenerate1 = .ok () →
      completeUpload hash env = .ok (mkPackage hash s data pi env.now)) ∧
    (∀ e, env.regenerate1 = .error e → completeUpload hash env = .error e) := by
  have hred := completeUpload_after_store hash env s data pi
    hs hexp hcomp hman hasm hext hstore hsig
  constructor
  · intro hr
    rw [hred, hr]
  · intro e hr
    rw [hred, hr]

/-- Session of the C6 witness and counterexample: a complete one-chunk
upload without signature or client checksum. -/
def c6Session : UploadSession :=
  { uploadId := "w6", filename := "g-1.0.0-1-x86_64.pkg.tar.zst", fileSize := 1,
    sha256 := none, repo := "sw1nn", arch := "x86_64", chunkSize := 1, totalChunks := 1,
    hasSignature := false, expired := false, uploadedChunks := {1} }

/-- `.PKGINFO` of the C6 witness and counterexample. -/
def c6PkgInfo : PkgInfo :=
  { pkgname := "foo", pkgver := "1.0.0-1", pkgdesc := none, url := none, builddate := none,
    packager := none, size := none, arch := "x86_64", license := [], replaces := [],
    groups := [], conflicts := [], provides := [], backup := [], depends := [],
    optdepends := [], makedepends := [], checkdepends := [] }

/-- Abstracted SHA-256 of the C6 scenarios. -/
def c6Hash : List Nat → String := fun _ => "cafe"

/-- Environment of the C6 witness: storage and the immediate DB
regeneration succeed, while retention cleanup, the post-cleanup
regeneration and the session deletion all fail. -/
def c6EnvW : CompleteEnv :=
  { session := some c6Session, chunks := fun i => if i = 1 then some [3] else none,
    manifestLen := 1, extract := fun _ => .ok c6PkgInfo, store := fun _ => .ok (),
    sigData := none, storeSig := .ok (), regenerate1 := .ok (),
    autoCleanupEnabled := true, cleanup := .error (.io "cleanup failed"),
    regenerate2 := .error (.metadataGeneration "regen after cleanup failed"),
    deleteSessionResult := .error (.io "session dir"), now := 0 }

/-- Witness for C6: with failing retention cleanup, failing post-cleanup
regeneration and failing session deletion, `complete` still returns the
created record. -/
theorem c6_post_store_failures_witness :
    completeUpload c6Hash c6EnvW = .ok (mkPackage c6Hash c6Session [3] c6PkgInfo 0) :=
  (c6_post_store_failures c6Hash c6EnvW c6Session [3] c6PkgInfo
    rfl rfl (by decide) rfl (by decide) rfl rfl rfl).1 rfl

/-- Environment of the C6 counterexample: identical, except that the two
post-store logged failures succeed and the *immediate* post-upload DB
regeneration fails. -/
def c6EnvCx : CompleteEnv :=
  { session := some c6Session, chunks := fun i => if i = 1 then some [3] else none,
    manifestLen := 1, extract := fun _ => .ok c6PkgInfo, store := fun _ => .ok (),
    sigData := none, storeSig := .ok (),
    regenerate1 := .error (.metadataGeneration "db build failed"),
    autoCleanupEnabled := true, cleanup := .ok [], regenerate2 := .ok (),
    deleteSessionResult := .ok (), now := 0 }

/-- Counterexample to C6 as stated: the package store step succeeded
(the package is durable), yet `complete` fails because the immediate
post-upload DB regeneration errored. -/
theorem c6_regen_failure_counterexample :
    c6EnvCx.store (mkPackage c6Hash c6Session [3] c6PkgInfo 0) = .ok () ∧
    completeUpload c6Hash c6EnvCx = .error (.metadataGeneration "db build failed") := by
  exact ⟨rfl, by decide⟩

/-! ## Retention engine (`src/storage/cleanup.rs`) -/

/-- Split a character list at the *first* occurrence of `c`
(`str::find` / `str::split_once`). -/
def splitOnceChar (c : Char) : List Char → Option (List Char × List Char)
  | [] => none
  | x :: xs =>
    if x = c then some ([], xs)
    else
      match splitOnceChar c xs with
      | none => none
      | some (a, b) => some (x :: a, b)

/-- Split a character list at the *last* occurrence of `c`
(`str::rfind` / `str::rsplit_once`). -/
def rsplitOnceChar (c : Char) (l : List Char) : Option (List Char × List Char) :=
  match splitOnceChar c l.reverse with
  | none => none
  | some (a, b) => some (b.reverse, a.reverse)

/-- `str::parse::<u64>`: an optional leading `+`, then one or more ASCII
digits, with the value below `2^64` (overflow is a parse error). -/
def parseU64 (s : List Char) : Option Nat :=
  let ds := match s with
    | '+' :: rest => rest
    | other => other
  if ds.isEmpty then none
  else if ds.all (fun c => c.isDigit) then
    let v := ds.foldl (fun acc c => acc * 10 + (c.toNat - 48)) 0
    if v < 2 ^ 64 then some v else none
  else none

/-- A semver numeric core component as the external `semver` crate
parses it: nonempty digits, no leading zero (unless exactly `0`), value
below `2^64`. -/
def parseSemverNum (s : List Char) : Option Nat :=
  if s.isEmpty then none
  else if ¬ s.all (fun c => c.isDigit) then none
  else if s.length > 1 ∧ s.head? = some '0' then none
  else
    let v := s.foldl (fun acc c => acc * 10 + (c.toNat - 48)) 0
    if v < 2 ^ 64 then some v else none

/-- Modelled behaviour of the external `semver::Version::parse` on the
inputs the retention engine feeds it: a `MAJOR.MINOR.PATCH` core of
numeric no-leading-zero components, optionally followed by
`-prerelease` and/or `+build` suffixes (suffixes are validated loosely
as nonempty runs of alphanumerics, `-` and `.`; the crate is stricter
about empty dot-separated identifiers, which no claim exercises). -/
def semverParse (s : List Char) : Option (Nat × Nat × Nat) :=
  let splitBuild := match splitOnceChar '+' s with
    | some (a, b) => (a, some b)
    | none => (s, none)
  let splitPre := match splitOnceChar '-' splitBuild.1 with
    | some (a, b) => (a, some b)
    | none => (splitBuild.1, none)
  let identOk : List Char → Bool := fun l =>
    !l.isEmpty && l.all (fun ch => ch.isAlphanum || ch == '-' || ch == '.')
  let suffixOk : Option (List Char) → Bool := fun o =>
    match o with
    | some l => identOk l
    | none => true
  if suffixOk splitBuild.2 && suffixOk splitPre.2 then
    match splitOnceChar '.' splitPre.1 with
    | none => none
    | some (maj, rest) =>
      match splitOnceChar '.' rest with
      | none => none
      | some (subMinor, subPatch) =>
        if subPatch.contains '.' then none
        else
          match parseSemverNum maj, parseSemverNum subMinor, parseSemverNum subPatch with
          | some a, some b, some c => some (a, b, c)
          | _, _, _ => none
  else none

/-- `parse_semver_from_pkgver` from `src/storage/cleanup.rs` (lines
15-35): strip an epoch prefix up to the first `:`, split the pkgrel off
at the *last* `-` (absence is a parse failure), parse the pkgrel as
`u64` and the remaining pkgver as a semver.  Returns
`(major, minor, patch, pkgrel)`. -/
def parseSemverFromPkgver (versionStr : String) : Option (Nat × Nat × Nat × Nat) :=
  let withoutEpoch := match splitOnceChar ':' versionStr.data with
    | some (_, rest) => rest
    | none => versionStr.data
  match rsplitOnceChar '-' withoutEpoch with
  | none => none
  | some (pkgver, pkgrel) =>
    match parseU64 pkgrel with
    | none => none
    | some rel =>
      match semverParse pkgver with
      | none => none
      | some (a, b, c) => some (a, b, c, rel)

/-- One `(Package, major, minor, patch, pkgrel)` tuple of the
`packages_with_versions` vector (lines 67-79). -/
structure VerEntry where
  pkg : Package
  major : Nat
  minor : Nat
  patch : Nat
  pkgrel : Nat
  deriving DecidableEq, Repr

/-- The pkgver-dedup key `(major, minor, patch)` (line 90). -/
def VerEntry.key (e : VerEntry) : Nat × Nat × Nat := (e.major, e.minor, e.patch)

/-- One step of the `pkgver_map` fold (lines 87-101): keep a first
occurrence of a key, replace it only when the incoming pkgrel is
strictly higher. -/
def dedupeStep (acc : List VerEntry) (e : VerEntry) : List VerEntry :=
  if acc.any (fun x => x.key = e.key) then
    acc.map (fun x => if x.key = e.key ∧ e.pkgrel > x.pkgrel then e else x)
  else acc ++ [e]

/-- Dedupe by pkgver (lines 87-104).  An association list stands in for
the `HashMap`; the map's unspecified iteration order is irrelevant
because the result is either totally sorted before use or has at most
one element. -/
def dedupeByPkgver (entries : List VerEntry) : List VerEntry :=
  entries.foldl dedupeStep []

/-- Descending comparison on `(major, minor, patch, pkgrel)` —
`(maj_b, min_b, pat_b, rel_b).cmp(&(maj_a, ..))` of line 137-140:
`a` sorts before `b` when its tuple is lexicographically at least
`b`'s. -/
def verLeDesc (a b : VerEntry) : Bool :=
  if a.major ≠ b.major then b.major < a.major
  else if a.minor ≠ b.minor then b.minor < a.minor
  else if a.patch ≠ b.patch then b.patch < a.patch
  else b.pkgrel ≤ a.pkgrel

/-- Insertion into a descending-sorted list. -/
def insertSortedDesc (x : VerEntry) : List VerEntry → List VerEntry
  | [] => [x]
  | y :: ys => if verLeDesc x y then x :: y :: ys else y :: insertSortedDesc x ys

/-- The `sort_by` of lines 137-141 (insertion sort; the comparison is a
total order on the distinct tuples produced by the dedupe). -/
def sortByDesc (l : List VerEntry) : List VerEntry :=
  l.foldr insertSortedDesc []

/-- The pure decision core of `cleanup_old_versions` from
`src/storage/cleanup.rs` (lines 46-196): filter the repo/arch listing by
name; with ≤ 1 match nothing is deleted; parse versions (non-semver ones
are excluded and never deleted); dedupe by pkgver keeping the highest
pkgrel; with ≤ 1 deduped entry delete only the lower pkgrels; otherwise
sort descending, keep the current version, the first same-minor entry
after it, and — only when `current.minor > 0` — the first
`(major, current.minor − 1)` entry; delete every package whose version
string is not among the kept ones, in listing order. -/
def cleanupToDelete (packageName : String) (allPackages : List Package) : List Package :=
  let packages := allPackages.filter (fun p => p.name == packageName)
  if packages.length ≤ 1 then []
  else
    let packagesWithVersions : List VerEntry :=
      packages.filterMap (fun p =>
        match parseSemverFromPkgver p.version with
        | some (a, b, c, r) => some ⟨p, a, b, c, r⟩
        | none => none)
    if packagesWithVersions.isEmpty then []
    else
      let deduplicated := dedupeByPkgver packagesWithVersions
      if deduplicated.length ≤ 1 then
        let keptVersions := deduplicated.map (fun e => e.pkg.version)
        packages.filter (fun p => !(keptVersions.contains p.version))
      else
        let sorted := sortByDesc deduplicated
        match sorted with
        | [] => []
        | current :: rest =>
          let sameMinor := rest.filter
            (fun e => e.major == current.major && e.minor == current.minor)
          let prevMinor :=
            if current.minor > 0 then
              sorted.filter
                (fun e => e.major == current.major && e.minor == current.minor - 1)
            else []
          let versionsToKeep := [current.pkg] ++
            (match sameMinor with
              | [] => []
              | sm :: _ => [sm.pkg]) ++
            (match prevMinor with
              | [] => []
              | pm :: _ => [pm.pkg])
          let keptVersions := versionsToKeep.map (fun p => p.version)
          packages.filter (fun p => !(keptVersions.contains p.version))

/-- The S5 package listing: five versions of `bar` on one
repo/arch. -/
def c1Packages : List Package :=
  ["1.0.0-1", "1.0.0-2", "1.1.0-1", "1.1.0-2", "2.0.0-1"].map (fun v =>
    { name := "bar", version := v, arch := "x86_64", repo := "sw1nn",
      filename := "bar-" ++ v ++ "-x86_64.pkg.tar.zst", sha256 := "s", size := 1,
      createdAt := 0 })

/-- Counterexample to C1 as stated: `1.1.0-2` is *deleted* by the
engine, not kept in a previous-minor slot — for current `2.0.0-1` the
code's previous-minor rule requires `(major, minor) = (2, −1)`-style
same-major matches and is skipped entirely because `current.minor = 0`. -/
theorem c1_retention_counterexample :
    "1.1.0-2" ∈ (cleanupToDelete "bar" c1Packages).map (fun p => p.version) := by
  decide

/-- **C1** (amended) For the five packages of one name/repo/arch with
versions `1.0.0-1, 1.0.0-2, 1.1.0-1, 1.1.0-2, 2.0.0-1`, the deletion
set is exactly `{1.0.0-1, 1.0.0-2, 1.1.0-1, 1.1.0-2}` and the kept set
is exactly `{2.0.0-1}`: `2.0.0-1` is current, no other `2.0.x` exists
for the same-minor slot, and the previous-minor slot is skipped because
`current.minor = 0` (the slot never crosses a major boundary, so
`1.1.0-2` is not retained). -/
theorem c1_retention_s5 :
    (cleanupToDelete "bar" c1Packages).map (fun p => p.version) =
      ["1.0.0-1", "1.0.0-2", "1.1.0-1", "1.1.0-2"] ∧
    (c1Packages.filter (fun p =>
        !((cleanupToDelete "bar" c1Packages).map (fun q => q.version)).contains
          p.version)).map (fun p => p.version) = ["2.0.0-1"] := by
  exact ⟨by decide, by decide⟩

/-! ## `.PKGINFO` line parser (`src/models/pkginfo.rs`) -/

/-- Rust `str::lines`: split the character stream at `\n` (a trailing
`\r` is removed later by the `trim` every line undergoes; the possible
final empty line is skipped as an empty line). -/
def splitLinesAux (cur : List Char) : List Char → List (List Char)
  | [] => [cur.reverse]
  | c :: cs =>
    if c == '\n' then cur.reverse :: splitLinesAux [] cs
    else splitLinesAux (c :: cur) cs

/-- Rust `str::trim` (ASCII whitespace suffices for the byte-oriented
`.PKGINFO` format). -/
def trimChars (l : List Char) : List Char :=
  ((l.dropWhile Char.isWhitespace).reverse.dropWhile Char.isWhitespace).reverse

/-- Does the second list start with the first? -/
def listStartsWith : List Char → List Char → Bool
  | [], _ => true
  | _ :: _, [] => false
  | p :: ps, c :: cs => p == c && listStartsWith ps cs

/-- Rust `str::split_once` with a (non-empty) literal needle: split at
the first occurrence, `none` when the needle does not occur. -/
def splitOnceSeq (sep : List Char) : List Char → Option (List Char × List Char)
  | [] => none
  | c :: cs =>
    if listStartsWith sep (c :: cs) then some ([], (c :: cs).drop sep.length)
    else
      match splitOnceSeq sep cs with
      | none => none
      | some (a, b) => some (c :: a, b)

/-- `line.starts_with('#')`. -/
def lineStartsWithHash : List Char → Bool
  | c :: _ => c == '#'
  | [] => false

/-- The mutable locals of `PkgInfo::parse` (lines 29-46). -/
structure PkgInfoAcc where
  pkgname : Option String := none
  pkgver : Option String := none
  pkgdesc : Option String := none
  url : Option String := none
  builddate : Option String := none
  packager : Option String := none
  size : Option Nat := none
  arch : Option String := none
  license : List String := []
  replaces : List String := []
  groups : List String := []
  conflicts : List String := []
  provides : List String := []
  backup : List String := []
  depends : List String := []
  optdepends : List String := []
  makedepends : List String := []
  checkdepends : List String := []
  deriving DecidableEq, Repr

/-- The loop body of `PkgInfo::parse` (lines 48-78): trim the line, skip
empty and `#` lines, split once on `" = "` (no separator: the line is
ignored), trim key and value, then dispatch on the key — scalars
overwrite, `size` stores the `u64` parse result (`.ok()`), list keys
append, unknown keys fall through. -/
def pkgInfoStep (acc : PkgInfoAcc) (rawLine : List Char) : PkgInfoAcc :=
  if (trimChars rawLine).isEmpty || lineStartsWithHash (trimChars rawLine) then acc
  else
    match splitOnceSeq (" = ".data) (trimChars rawLine) with
    | none => acc
    | some (key, value0) =>
      if trimChars key = "pkgname".data then
        { acc with pkgname := some (String.mk (trimChars value0)) }
      else if trimChars key = "pkgver".data then
        { acc with pkgver := some (String.mk (trimChars value0)) }
      else if trimChars key = "pkgdesc".data then
        { acc with pkgdesc := some (String.mk (trimChars value0)) }
      else if trimChars key = "url".data then
        { acc with url := some (String.mk (trimChars value0)) }
      else if trimChars key = "builddate".data then
        { acc with builddate := some (String.mk (trimChars value0)) }
      else if trimChars key = "packager".data then
        { acc with packager := some (String.mk (trimChars value0)) }
      else if trimChars key = "size".data then
        { acc with size := parseU64 (trimChars value0) }
      else if trimChars key = "arch".data then
        { acc with arch := some (String.mk (trimChars value0)) }
      else if trimChars key = "license".data then
        { acc with license := acc.license ++ [String.mk (trimChars value0)] }
      else if trimChars key = "replaces".data then
        { acc with replaces := acc.replaces ++ [String.mk (trimChars value0)] }
      else if trimChars key = "group".data then
        { acc with groups := acc.groups ++ [String.mk (trimChars value0)] }
      else if trimChars key = "conflict".data then
        { acc with conflicts := acc.conflicts ++ [String.mk (trimChars value0)] }
      else if trimChars key = "provides".data then
        { acc with provides := acc.provides ++ [String.mk (trimChars value0)] }
      else if trimChars key = "backup".data then
        { acc with backup := acc.backup ++ [String.mk (trimChars value0)] }
      else if trimChars key = "depend".data then
        { acc with depends := acc.depends ++ [String.mk (trimChars value0)] }
      else if trimChars key = "optdepend".data then
        { acc with optdepends := acc.optdepends ++ [String.mk (trimChars value0)] }
      else if trimChars key = "makedepend".data then
        { acc with makedepends := acc.makedepends ++ [String.mk (trimChars value0)] }
      else if trimChars key = "checkdepend".data then
        { acc with checkdepends := acc.checkdepends ++ [String.mk (trimChars value0)] }
      else acc

/-- The tail of `PkgInfo::parse`: require `pkgname`, `pkgver` and
`arch`, in the evaluation order of the struct literal's `ok_or` calls
(lines 80-99). -/
def PkgInfo.finalize (acc : PkgInfoAcc) : Except String PkgInfo :=
  match acc.pkgname with
  | none => .error "Missing pkgname"
  | some n =>
    match acc.pkgver with
    | none => .error "Missing pkgver"
    | some v =>
      match acc.arch with
      | none => .error "Missing arch"
      | some a =>
        .ok { pkgname := n, pkgver := v, pkgdesc := acc.pkgdesc, url := acc.url,
              builddate := acc.builddate, packager := acc.packager, size := acc.size,
              arch := a, license := acc.license, replaces := acc.replaces,
              groups := acc.groups, conflicts := acc.conflicts, provides := acc.provides,
              backup := acc.backup, depends := acc.depends, optdepends := acc.optdepends,
              makedepends := acc.makedepends, checkdepends := acc.checkdepends }

/-- `PkgInfo::parse` over the split lines: fold the loop body over the
lines, then extract the record. -/
def PkgInfo.parseLines (lines : List (List Char)) : Except String PkgInfo :=
  PkgInfo.finalize (lines.foldl pkgInfoStep {})

/-- `PkgInfo::parse` from `src/models/pkginfo.rs` (lines 28-100). -/
def PkgInfo.parse (content : String) : Except String PkgInfo :=
  PkgInfo.parseLines (splitLinesAux [] content.data)

/-- The keys the dispatch of `PkgInfo::parse` recognises. -/
def knownKeys : List (List Char) :=
  ["pkgname".data, "pkgver".data, "pkgdesc".data, "url".data, "builddate".data,
   "packager".data, "size".data, "arch".data, "license".data, "replaces".data,
   "group".data, "conflict".data, "provides".data, "backup".data, "depend".data,
   "optdepend".data, "makedepend".data, "checkdepend".data]

/-- A line the parser leaves no trace of: blank, comment, separator-less,
or carrying an unknown key. -/
def IsIgnoredLine (rawLine : List Char) : Prop :=
  (trimChars rawLine).isEmpty = true ∨
  lineStartsWithHash (trimChars rawLine) = true ∨
  splitOnceSeq (" = ".data) (trimChars rawLine) = none ∨
  ∃ key value, splitOnceSeq (" = ".data) (trimChars rawLine) = some (key, value) ∧
    knownKeys.contains (trimChars key) = false

/-- An ignored line leaves the parse state unchanged. -/
theorem pkgInfoStep_ignored (acc : PkgInfoAcc) (rawLine : List Char)
    (h : IsIgnoredLine rawLine) : pkgInfoStep acc rawLine = acc := by
  unfold pkgInfoStep
  rcases h with h | h | h | ⟨key, value, hsv, hk⟩
  · rw [if_pos (by simp [h])]
  · rw [if_pos (by simp [h])]
  · by_cases hc : ((trimChars rawLine).isEmpty || lineStartsWithHash (trimChars rawLine)) = true
    · rw [if_pos hc]
    · rw [if_neg hc, h]
  · by_cases hc : ((trimChars rawLine).isEmpty || lineStartsWithHash (trimChars rawLine)) = true
    · rw [if_pos hc]
    · rw [if_neg hc]
      have h18 : ∀ s : List Char, s ∈ knownKeys → ¬ (trimChars key = s) := by
        intro s hs heq
        rw [heq] at hk
        have hmem : knownKeys.contains s = true := by
          simp only [List.contains, List.elem_eq_mem, decide_eq_true_eq]
          exact hs
        rw [hmem] at hk
        cases hk
      split
      · rfl
      · rename_i key2 value2 heq
        rw [hsv] at heq
        injection heq with heq
        injection heq with hkey hval
        subst hkey
        subst hval
        rw [if_neg (h18 ("pkgname".data) (by decide)),
          if_neg (h18 ("pkgver".data) (by decide)),
          if_neg (h18 ("pkgdesc".data) (by decide)),
          if_neg (h18 ("url".data) (by decide)),
          if_neg (h18 ("builddate".data) (by decide)),
          if_neg (h18 ("packager".data) (by decide)),
          if_neg (h18 ("size".data) (by decide)),
          if_neg (h18 ("arch".data) (by decide)),
          if_neg (h18 ("license".data) (by decide)),
          if_neg (h18 ("replaces".data) (by decide)),
          if_neg (h18 ("group".data) (by decide)),
          if_neg (h18 ("conflict".data) (by decide)),
          if_neg (h18 ("provides".data) (by decide)),
          if_neg (h18 ("backup".data) (by decide)),
          if_neg (h18 ("depend".data) (by decide)),
          if_neg (h18 ("optdepend".data) (by decide)),
          if_neg (h18 ("makedepend".data) (by decide)),
          if_neg (h18 ("checkdepend".data) (by decide))]

/-- **C10** (amended) `PkgInfo::parse` is total and fails only by
reporting the first missing required field — every error is exactly one
of `Missing pkgname`, `Missing pkgver`, `Missing arch`; lines without
the `" = "` separator and lines with unknown keys are silently ignored
(removing such a line never changes the result).  An *unparseable size
value* however is not ignored: it overwrites the `size` field with
"absent" (`c10_size_overwrite_counterexample`), though still without
raising an error. -/
theorem c10_pkginfo_parse (lines : List (List Char)) :
    (∀ e, PkgInfo.parseLines lines = .error e →
      e = "Missing pkgname" ∨ e = "Missing pkgver" ∨ e = "Missing arch") ∧
    (∀ pre post l, lines = pre ++ l :: post → IsIgnoredLine l →
      PkgInfo.parseLines lines = PkgInfo.parseLines (pre ++ post)) ∧
    ((∃ pi, PkgInfo.parseLines lines = .ok pi) ∨
      (∃ e, PkgInfo.parseLines lines = .error e)) := by
  refine ⟨?_, ?_, ?_⟩
  · intro e he
    unfold PkgInfo.parseLines PkgInfo.finalize at he
    split at he
    · injection he with he
      exact Or.inl he.symm
    · split at he
      · injection he with he
        exact Or.inr (Or.inl he.symm)
      · split at he
        · injection he with he
          exact Or.inr (Or.inr he.symm)
        · cases he
  · intro pre post l hsplit hign
    subst hsplit
    unfold PkgInfo.parseLines
    rw [List.foldl_append, List.foldl_cons, pkgInfoStep_ignored _ _ hign,
      ← List.foldl_append]
  · cases hres : PkgInfo.parseLines lines with
    | ok pi => exact Or.inl ⟨pi, rfl⟩
    | error e => exact Or.inr ⟨e, rfl⟩

/-- Witness for C10: removing an unknown-key line does not change the
parse of a minimal `.PKGINFO`. -/
theorem c10_pkginfo_parse_witness :
    PkgInfo.parseLines
      ["pkgname = a".data, "unknownkey = v".data, "pkgver = 1".data, "arch = x".data] =
    PkgInfo.parseLines ["pkgname = a".data, "pkgver = 1".data, "arch = x".data] :=
  (c10_pkginfo_parse
    ["pkgname = a".data, "unknownkey = v".data, "pkgver = 1".data, "arch = x".data]).2.1
    ["pkgname = a".data] ["pkgver = 1".data, "arch = x".data] "unknownkey = v".data rfl
    (Or.inr (Or.inr (Or.inr ⟨"unknownkey".data, "v".data, by decide, by decide⟩)))

/-- `.PKGINFO` content with a valid `size` line followed by an
unparseable one. -/
def c10ContentA : String := "pkgname = a\npkgver = 1.0\narch = x\nsize = 7\nsize = zz"

/-- The same content without the unparseable `size` line. -/
def c10ContentB : String := "pkgname = a\npkgver = 1.0\narch = x\nsize = 7"

/-- Counterexample to C10 as stated: the unparseable `size` line is not
"silently ignored" — it resets the already-parsed `size = 7` to absent
(`value.parse().ok()` overwrites the field), so removing the offending
line changes the result. -/
theorem c10_size_overwrite_counterexample :
    (PkgInfo.parse c10ContentA).toOption.map (fun pi => pi.size) = some none ∧
    (PkgInfo.parse c10ContentB).toOption.map (fun pi => pi.size) = some (some 7) ∧
    c10ContentA = c10ContentB ++ "\nsize = zz" := by
  exact ⟨by decide, by decide, by decide⟩

end PkgRepo
